import Mathlib

/-!
Verification development for hcid/dbus-test.c (BlueZ AuditRemoteDevice probe
service).  The definitions below are a shallow embedding of the C source:

* the `struct audit` record, the global `audits` list and the name-listener
  registrations become `Audit`, `DaemonState.audits` and
  `DaemonState.listeners`;
* the D-Bus handlers `audit_remote_device` / `cancel_audit_remote_device` and
  the event-loop callbacks `l2raw_connect_complete`, `l2raw_data_callback`,
  `l2raw_input_timer` and `audit_requestor_exited` become state-transition
  functions; their external inputs (message arguments, socket readiness
  conditions, recv/send/getsockopt results, allocation success) are explicit
  parameters;
* the zero-filled 48-byte receive buffer and the little-endian field reads of
  `handle_mtu_response` / `handle_features_response` become `bufByte`,
  `rspResult`, `rspDataU16`, `rspDataU32`;
* GIOChannel reference counting and source removal, used by the teardown
  paths, are modelled separately by the instrumented resource state `Res`.

GLib semantics assumed by the model (external library, per its documented
behaviour): a watch added with g_io_add_watch holds one reference on the
channel and is removed (dropping that reference) when its callback returns
FALSE; G_IO_NVAL is delivered only for a channel whose descriptor has been
closed; a timeout source is removed when its handler returns FALSE.
-/

namespace DbusTest

/-! ## Byte-level decoding (the fixed receive buffer of l2raw_data_callback) -/

/-- L2CAP signaling command header size (code, ident, 16-bit len). -/
def L2CAP_CMD_HDR_SIZE : Nat := 4

/-- Size of an info request payload (16-bit type). -/
def L2CAP_INFO_REQ_SIZE : Nat := 2

/-- Size of an info response fixed part (16-bit type, 16-bit result). -/
def L2CAP_INFO_RSP_SIZE : Nat := 4

/-- Command code of an L2CAP information request (0x0a). -/
def L2CAP_INFO_REQ : Nat := 10

/-- The timer duration used by the source, in milliseconds. -/
def L2INFO_TIMEOUT : Nat := 2000

/-- Number of bytes requested from recv in l2raw_data_callback:
L2CAP_CMD_HDR_SIZE + L2CAP_INFO_RSP_SIZE + 2. -/
def recvRequest : Nat := L2CAP_CMD_HDR_SIZE + L2CAP_INFO_RSP_SIZE + 2

/-- Byte `i` of the 48-byte receive buffer after `memset(buf, 0, sizeof(buf))`
followed by `recv(sk, buf, 10, 0)` that produced the bytes `rx`: positions
covered by the received data hold it, every other position holds the memset
zero.  (`List.getD` returns the default 0 beyond the received length.) -/
def bufByte (rx : List Nat) (i : Nat) : Nat :=
  if i < recvRequest then rx.getD i 0 else 0

/-- Little-endian 16-bit read (btohs of an unaligned uint16_t on the wire). -/
def le16 (b0 b1 : Nat) : Nat := b0 + 256 * b1

/-- Little-endian 32-bit read (btohl of an unaligned uint32_t on the wire). -/
def le32 (b0 b1 b2 b3 : Nat) : Nat :=
  b0 + 256 * b1 + 65536 * b2 + 16777216 * b3

/-- `btohs(rsp->result)`: the response sits at buf + L2CAP_CMD_HDR_SIZE, its
`result` field is preceded by the 16-bit `type` field, so bytes 6 and 7. -/
def rspResult (rx : List Nat) : Nat := le16 (bufByte rx 6) (bufByte rx 7)

/-- `btohs(bt_get_unaligned((uint16_t *) rsp->data))`: bytes 8 and 9. -/
def rspDataU16 (rx : List Nat) : Nat := le16 (bufByte rx 8) (bufByte rx 9)

/-- `btohl(bt_get_unaligned((uint32_t *) rsp->data))`: bytes 8 through 11. -/
def rspDataU32 (rx : List Nat) : Nat :=
  le32 (bufByte rx 8) (bufByte rx 9) (bufByte rx 10) (bufByte rx 11)

/-- The 6 bytes built and sent for an info request: command header
(code = L2CAP_INFO_REQ, ident = 42, len = htobs(2)) followed by the 16-bit
little-endian info type; the rest of the 48-byte buffer is not sent. -/
def infoRequestBytes (ty : Nat) : List Nat :=
  [L2CAP_INFO_REQ, 42, 2, 0, ty % 256, ty / 256 % 256]

/-! ## The audit record and daemon state -/

/-- The two GIOFunc callbacks that can be registered as `audit->io_id`. -/
inductive GIOFunc
  | connectComplete
  | dataCallback
  deriving Repr, DecidableEq

/-- The `audit->state` enum: AUDIT_STATE_MTU = 0, AUDIT_STATE_FEATURES. -/
inductive AuditState
  | mtu
  | features
  deriving Repr, DecidableEq

/-- `struct audit`.  Pointer-valued fields become presence booleans plus, for
`io_id`, the callback the watch dispatches to.  `ioChanClosed` records whether
g_io_channel_close has been called on the channel (needed to model when GLib
can deliver G_IO_NVAL); `id` is the allocation identity (the C pointer). -/
structure Audit where
  id : Nat
  addr : Nat
  adapterPath : String
  requestor : String
  ioChan : Bool
  ioChanClosed : Bool
  ioWatch : Option GIOFunc
  timeout : Bool
  state : AuditState
  gotMtu : Bool
  mtu : Nat
  gotMask : Bool
  mask : Nat
  deriving Repr, DecidableEq

/-- The daemon-side state the file mutates: the global `audits` slist and the
name-listener registrations (requestor name, audit identity) made through
name_listener_add / name_listener_remove. -/
structure DaemonState where
  audits : List Audit
  listeners : List (String × Nat)
  nextId : Nat
  deriving Repr, DecidableEq

/-- The empty initial state (`static struct slist *audits = NULL`). -/
def initState : DaemonState := { audits := [], listeners := [], nextId := 0 }

/-! ## handle_mtu_response / handle_features_response -/

/-- What the response handlers report through debug(): the code logs the
decoded value on result 0x0000 and "not supported" on 0x0001; its switch has
no arm for any other result code. -/
inductive InfoLog
  | mtuValue (v : Nat)
  | mtuNotSupported
  | maskValue (v : Nat)
  | maskNotSupported
  deriving Repr, DecidableEq

/-- `handle_mtu_response`: switch on btohs(rsp->result); 0x0000 stores the
16-bit payload into `mtu` and sets `got_mtu`; 0x0001 only logs; any other
result code falls out of the switch without effect. -/
def handle_mtu_response (audit : Audit) (rx : List Nat) : Audit × Option InfoLog :=
  match rspResult rx with
  | 0 => ({ audit with mtu := rspDataU16 rx, gotMtu := true },
          some (InfoLog.mtuValue (rspDataU16 rx)))
  | 1 => (audit, some InfoLog.mtuNotSupported)
  | _ => (audit, none)

/-- `handle_features_response`: switch on btohs(rsp->result); 0x0000 stores the
32-bit payload into `mask` and sets `got_mask`; 0x0001 only logs; any other
result code falls out of the switch without effect. -/
def handle_features_response (audit : Audit) (rx : List Nat) : Audit × Option InfoLog :=
  match rspResult rx with
  | 0 => ({ audit with mask := rspDataU32 rx, gotMask := true },
          some (InfoLog.maskValue (rspDataU32 rx)))
  | 1 => (audit, some InfoLog.maskNotSupported)
  | _ => (audit, none)

/-! ## The io callbacks -/

/-- The GIOCondition bits a callback inspects. -/
structure GIOCondition where
  isErr : Bool
  isHup : Bool
  isNval : Bool
  deriving Repr, DecidableEq

/-- External inputs consumed by one io callback invocation: the delivered
condition, the getsockopt(SO_ERROR) outcome, the recv outcome (none models a
negative return, some rx the received bytes) and whether send succeeds. -/
structure IOEnv where
  cond : GIOCondition
  getsockoptOk : Bool
  soError : Nat
  recvOk : Option (List Nat)
  sendOk : Bool
  deriving Repr, DecidableEq

/-- Outcome of one io callback run on its audit: either the record survives
(possibly updated, with the bytes successfully sent during the call), or the
callback ran the `failed` teardown — the record left the registry and was
freed. -/
inductive CbResult
  | keep (a : Audit) (sent : List (List Nat))
  | teardown (sent : List (List Nat))
  deriving Repr, DecidableEq

/-- `l2raw_connect_complete`.  G_IO_NVAL (only deliverable once the channel
has been closed, which for a registered record never happens — every close in
the file is paired with removal from the registry) unrefs the channel and
drops the watch.  ERR/HUP, getsockopt failure, a nonzero SO_ERROR, or a send
failure run the `failed` teardown.  Otherwise the MTU info request is sent,
the L2INFO_TIMEOUT timer is started and the data callback watch replaces the
connect watch. -/
def l2raw_connect_complete (env : IOEnv) (audit : Audit) : CbResult :=
  if env.cond.isNval then
    (if audit.ioChanClosed then CbResult.keep { audit with ioWatch := none } []
     else CbResult.keep audit [])
  else if env.cond.isErr || env.cond.isHup then CbResult.teardown []
  else if !env.getsockoptOk then CbResult.teardown []
  else if env.soError ≠ 0 then CbResult.teardown []
  else if !env.sendOk then CbResult.teardown []
  else CbResult.keep
    { audit with timeout := true, ioWatch := some GIOFunc.dataCallback }
    [infoRequestBytes 1]

/-- `l2raw_data_callback`.  After the NVAL branch the pending timer (if any)
is removed.  ERR/HUP or a recv failure run the `failed` teardown.  In
AUDIT_STATE_MTU the response is fed to handle_mtu_response, the features info
request is sent (failure is terminal), a new timer is started and the state
advances; in AUDIT_STATE_FEATURES the response is fed to
handle_features_response and the function falls through to the terminal
teardown. -/
def l2raw_data_callback (env : IOEnv) (audit0 : Audit) : CbResult :=
  if env.cond.isNval then
    (if audit0.ioChanClosed then CbResult.keep { audit0 with ioWatch := none } []
     else CbResult.keep audit0 [])
  else
    let audit := { audit0 with timeout := false }
    if env.cond.isErr || env.cond.isHup then CbResult.teardown []
    else
      match env.recvOk with
      | none => CbResult.teardown []
      | some rx =>
        match audit.state with
        | AuditState.mtu =>
          let audit1 := (handle_mtu_response audit rx).1
          if !env.sendOk then CbResult.teardown []
          else CbResult.keep
            { audit1 with timeout := true, state := AuditState.features }
            [infoRequestBytes 2]
        | AuditState.features => CbResult.teardown []

/-- Dispatch through the function pointer stored in `audit->io_id`. -/
def applyCb (f : GIOFunc) (env : IOEnv) (audit : Audit) : CbResult :=
  match f with
  | GIOFunc.connectComplete => l2raw_connect_complete env audit
  | GIOFunc.dataCallback => l2raw_data_callback env audit

/-! ## Address validation and parsing (external collaborators) -/

/-- Whether a character code is a hexadecimal digit. -/
def isHexDigitCode (n : Nat) : Bool :=
  (48 ≤ n && n ≤ 57) || (65 ≤ n && n ≤ 70) || (97 ≤ n && n ≤ 102)

/-- Chunk check for the colon-separated octet list (58 is the colon). -/
def addrChunks : List Nat → Bool
  | [a, b] => isHexDigitCode a && isHexDigitCode b
  | a :: b :: c :: rest =>
    isHexDigitCode a && isHexDigitCode b && (c == 58) && addrChunks rest
  | _ => false

/-- Modelled from the spec: address-string validation (`check_address`) is an
external collaborator, "`address` must parse as a valid device identifier";
a valid identifier is the canonical form of six two-hex-digit octets
separated by colons (17 characters). -/
def check_address (s : String) : Bool :=
  (s.length == 17) && addrChunks (s.toList.map Char.toNat)

/-- Value of a hexadecimal digit character code. -/
def hexVal (n : Nat) : Nat :=
  if n ≤ 57 then n - 48 else if n ≤ 70 then n - 55 else n - 87

/-- Modelled from the spec: `str2ba` (address parsing, an external
collaborator) — the 6-byte device identifier denoted by the string, read as
the hex digits in order; separators contribute nothing. -/
def str2ba (s : String) : Nat :=
  (s.toList.map Char.toNat).foldl
    (fun acc n => if isHexDigitCode n then acc * 16 + hexVal n else acc) 0

/-! ## The D-Bus method handlers -/

/-- Arguments of an AuditRemoteDevice call: the string argument (none models
a message whose arguments fail to extract), the sender and the object path. -/
structure StartMsg where
  args : Option String
  sender : String
  path : String
  deriving Repr, DecidableEq

/-- The `hci_dbus_data` fields the handler consults for admission control. -/
structure DBusData where
  disc_active : Bool
  pdisc_active : Bool
  pinq_idle : Bool
  bonding : Bool
  pin_reqs : List Nat
  deriving Repr, DecidableEq

/-- External outcomes during a start call: reply allocation, audit allocation
(malloc/strdup), and whether l2raw_connect returns a valid socket. -/
structure StartEnv where
  replyAllocOk : Bool
  auditAllocOk : Bool
  connectOk : Bool
  deriving Repr, DecidableEq

/-- Replies of audit_remote_device (the D-Bus error helpers live outside this
file; each constructor names the error reply produced). -/
inductive StartReply
  | invalidArguments
  | discoverInProgress
  | bondingInProgress
  | needMemory
  | connectionAttemptFailed
  | ok
  deriving Repr, DecidableEq

/-- `audit_new`: malloc + memset(0), then the address, the adapter path, the
requestor (strdup of the sender) and the connection ref are filled in.  The
zeroed fields give io = NULL, io_id = 0, timeout = 0, state =
AUDIT_STATE_MTU, got_mtu = got_mask = FALSE, mtu = mask = 0. -/
def audit_new (i : Nat) (msg : StartMsg) (dba : Nat) : Audit :=
  { id := i, addr := dba, adapterPath := msg.path, requestor := msg.sender,
    ioChan := false, ioChanClosed := false, ioWatch := none, timeout := false,
    state := AuditState.mtu, gotMtu := false, mtu := 0,
    gotMask := false, mask := 0 }

/-- `audit_in_progress`: whether any registered audit has a non-NULL io. -/
def audit_in_progress (l : List Audit) : Bool := l.any (fun a => a.ioChan)

/-- `audit_remote_device`.  Argument extraction and check_address failures
reply InvalidArguments; an active discovery replies DiscoverInProgress; an
active bonding or a pending PIN request for the address replies
BondingInProgress (pending_remote_name_cancel touches only the adapter data,
not the audit registry); allocation failures reply NEED_MEMORY.  If no audit
is in progress a raw socket is connected (failure replies
ConnectionAttemptFailed) and the connect-complete watch is added; otherwise
the record is registered without a socket.  In both registering branches a
name listener for the sender is added and the record is appended. -/
def audit_remote_device (dd : DBusData) (msg : StartMsg) (env : StartEnv)
    (s : DaemonState) : StartReply × DaemonState :=
  match msg.args with
  | none => (StartReply.invalidArguments, s)
  | some address =>
    if !check_address address then (StartReply.invalidArguments, s)
    else
      let dba := str2ba address
      if dd.disc_active || (dd.pdisc_active && !dd.pinq_idle) then
        (StartReply.discoverInProgress, s)
      else if dd.bonding then (StartReply.bondingInProgress, s)
      else if dd.pin_reqs.contains dba then (StartReply.bondingInProgress, s)
      else if !env.replyAllocOk then (StartReply.needMemory, s)
      else if !env.auditAllocOk then (StartReply.needMemory, s)
      else
        let audit := audit_new s.nextId msg dba
        if !audit_in_progress s.audits then
          if !env.connectOk then (StartReply.connectionAttemptFailed, s)
          else
            let audit1 := { audit with
                            ioChan := true,
                            ioWatch := some GIOFunc.connectComplete }
            (StartReply.ok,
             { audits := s.audits ++ [audit1],
               listeners := s.listeners ++ [(msg.sender, audit1.id)],
               nextId := s.nextId + 1 })
        else
          (StartReply.ok,
           { audits := s.audits ++ [audit],
             listeners := s.listeners ++ [(msg.sender, audit.id)],
             nextId := s.nextId + 1 })

/-- Arguments of a CancelAuditRemoteDevice call. -/
structure CancelMsg where
  args : Option String
  sender : String
  deriving Repr, DecidableEq

/-- External outcomes during a cancel call. -/
structure CancelEnv where
  replyAllocOk : Bool
  deriving Repr, DecidableEq

/-- Replies of cancel_audit_remote_device. -/
inductive CancelReply
  | invalidArguments
  | notInProgress
  | notAuthorized
  | needMemory
  | ok
  deriving Repr, DecidableEq

/-- `slist_find(audits, &dba, audit_addr_cmp)`: first audit whose address
compares equal. -/
def slist_find_addr (dba : Nat) : List Audit → Option Audit
  | [] => none
  | a :: rest => if a.addr = dba then some a else slist_find_addr dba rest

/-- `slist_remove(audits, audit)`: remove the first cell holding this record
(identified by its allocation identity). -/
def removeById (i : Nat) : List Audit → List Audit
  | [] => []
  | a :: rest => if a.id = i then rest else a :: removeById i rest

/-- `cancel_audit_remote_device`.  Argument or address failures reply
InvalidArguments; an address with no registered audit replies NotInProgress; a
sender different from the audit's requestor replies NotAuthorized and changes
nothing.  Otherwise the io channel is closed if present, the pending timer
removed if present, the record removed from the registry, the name listener
removed and the record freed; then the reply is produced. -/
def cancel_audit_remote_device (msg : CancelMsg) (env : CancelEnv)
    (s : DaemonState) : CancelReply × DaemonState :=
  match msg.args with
  | none => (CancelReply.invalidArguments, s)
  | some address =>
    if !check_address address then (CancelReply.invalidArguments, s)
    else
      match slist_find_addr (str2ba address) s.audits with
      | none => (CancelReply.notInProgress, s)
      | some audit =>
        if audit.requestor ≠ msg.sender then (CancelReply.notAuthorized, s)
        else
          let s1 : DaemonState :=
            { audits := removeById audit.id s.audits,
              listeners := s.listeners.filter (fun l => !(l.2 == audit.id)),
              nextId := s.nextId }
          if env.replyAllocOk then (CancelReply.ok, s1)
          else (CancelReply.needMemory, s1)

/-! ## Event-loop deliveries -/

/-- Delivery of an io condition to the watch of the audit identified by
`aid`: audits without a watch have no event source, so nothing can be
delivered to them; for the others the registered callback runs, either
updating the record in place or (teardown) removing it.  The second component
collects the identities of torn-down records, whose name listeners are
removed by the teardown. -/
def deliverList (aid : Nat) (env : IOEnv) : List Audit → List Audit × List Nat
  | [] => ([], [])
  | a :: rest =>
    let p := deliverList aid env rest
    if a.id = aid then
      match a.ioWatch with
      | none => (a :: p.1, p.2)
      | some f =>
        match applyCb f env a with
        | CbResult.keep a1 _ => (a1 :: p.1, p.2)
        | CbResult.teardown _ => (p.1, a.id :: p.2)
    else (a :: p.1, p.2)

/-- One io readiness event dispatched by the main loop. -/
def deliverIoEvent (aid : Nat) (env : IOEnv) (s : DaemonState) : DaemonState :=
  let p := deliverList aid env s.audits
  { audits := p.1,
    listeners := s.listeners.filter (fun l => !(p.2.contains l.2)),
    nextId := s.nextId }

/-- `l2raw_input_timer` applied to the audit holding the firing timer: the
io channel is closed, the record removed from the registry, the name listener
removed, the record freed; the timer source goes away with the FALSE return.
A record whose timer is not pending has no scheduled source, so nothing
fires. -/
def timerList (aid : Nat) : List Audit → List Audit × List Nat
  | [] => ([], [])
  | a :: rest =>
    let p := timerList aid rest
    if a.id = aid && a.timeout then (p.1, a.id :: p.2)
    else (a :: p.1, p.2)

/-- One timer expiry dispatched by the main loop. -/
def fireTimer (aid : Nat) (s : DaemonState) : DaemonState :=
  let p := timerList aid s.audits
  { audits := p.1,
    listeners := s.listeners.filter (fun l => !(p.2.contains l.2)),
    nextId := s.nextId }

/-- Modelled from the spec: the requestor-exit path — "Requestor-exit
callback: identical teardown to cancellation, triggered by the transport
layer's session-termination notification".  The name-listener framework
(outside this file) invokes `audit_requestor_exited` for every listener
registered under the exiting name and releases those listeners; each
invocation removes its audit from the registry, closes its io channel if
present, removes its pending timer if present and frees the record. -/
def requestorExit (name : String) (s : DaemonState) : DaemonState :=
  { audits := s.audits.filter (fun a => !(a.requestor == name)),
    listeners := s.listeners.filter (fun l => !(l.1 == name)),
    nextId := s.nextId }

/-! ## Operation sequences -/

/-- The operations that can reach the registry: the two method calls and the
three event-loop callbacks. -/
inductive Op
  | start (dd : DBusData) (msg : StartMsg) (env : StartEnv)
  | cancel (msg : CancelMsg) (env : CancelEnv)
  | ioReady (aid : Nat) (env : IOEnv)
  | timerFire (aid : Nat)
  | exited (name : String)

/-- Apply one operation to the daemon state. -/
def applyOp (s : DaemonState) (op : Op) : DaemonState :=
  match op with
  | Op.start dd msg env => (audit_remote_device dd msg env s).2
  | Op.cancel msg env => (cancel_audit_remote_device msg env s).2
  | Op.ioReady aid env => deliverIoEvent aid env s
  | Op.timerFire aid => fireTimer aid s
  | Op.exited name => requestorExit name s

/-- Run a sequence of operations from the empty registry. -/
def runOps (ops : List Op) : DaemonState := ops.foldl applyOp initState

/-! ## Instrumented resource accounting for the teardown paths

Every resource owned by one audit record, with a release primitive that fails
(returns `none`) when the resource is not currently held — so a completed run
of a teardown path certifies that no release was performed twice, and a final
state equal to `resReleased` certifies that nothing was left held.  `ioRefs`
is the GIOChannel reference count: g_io_channel_unix_new yields 1 and the
added watch holds a second one. -/

/-- Resource state of one audit record. -/
structure Res where
  mem : Bool
  registered : Bool
  listener : Bool
  ioOpen : Bool
  ioRefs : Nat
  watch : Bool
  timer : Bool
  deriving Repr, DecidableEq

/-- `g_io_channel_close`: valid only on an open channel. -/
def resClose (r : Res) : Option Res :=
  if r.ioOpen then some { r with ioOpen := false } else none

/-- `g_io_channel_unref`: valid only on a live reference. -/
def resUnref (r : Res) : Option Res :=
  if 0 < r.ioRefs then some { r with ioRefs := r.ioRefs - 1 } else none

/-- Removal of the io watch source (the callback returning FALSE, or GLib
dismantling it): drops the source and the channel reference it held. -/
def resWatchDrop (r : Res) : Option Res :=
  if r.watch && 0 < r.ioRefs then
    some { r with watch := false, ioRefs := r.ioRefs - 1 }
  else none

/-- `g_timeout_remove` (or the timer handler returning FALSE): valid only on
a pending timer. -/
def resTimerDrop (r : Res) : Option Res :=
  if r.timer then some { r with timer := false } else none

/-- `slist_remove(audits, audit)`: valid only on a registered record. -/
def resUnregister (r : Res) : Option Res :=
  if r.registered then some { r with registered := false } else none

/-- `name_listener_remove` (or the framework releasing the fired listener):
valid only on a live listener. -/
def resListenerDrop (r : Res) : Option Res :=
  if r.listener then some { r with listener := false } else none

/-- `audit_free`: valid only on allocated memory. -/
def resFree (r : Res) : Option Res :=
  if r.mem then some { r with mem := false } else none

/-- The event loop delivering the pending G_IO_NVAL to a watch that survived
its channel's close (GLib raises NVAL once the descriptor is closed): the
callbacks' NVAL branch unrefs the channel and returns FALSE, removing the
watch.  A no-op when no watch survives or the channel is still open. -/
def resFlushNval (r : Res) : Option Res :=
  if r.watch && !r.ioOpen then resUnref r >>= resWatchDrop else some r

/-- The fully released state: every resource gone. -/
def resReleased : Res :=
  { mem := false, registered := false, listener := false, ioOpen := false,
    ioRefs := 0, watch := false, timer := false }

/-- Entry state of a connected probe: allocated, registered, listened-for,
channel open with its two references (creation + watch), watch registered;
the timer is whatever the state machine says. -/
def resConnected (r : Res) : Prop :=
  r.mem = true ∧ r.registered = true ∧ r.listener = true ∧ r.ioOpen = true
  ∧ r.ioRefs = 2 ∧ r.watch = true

/-- Entry state of a probe registered while the single-flight gate was held:
allocated, registered, listened-for, and nothing else. -/
def resQueued (r : Res) : Prop :=
  r = { mem := true, registered := true, listener := true, ioOpen := false,
        ioRefs := 0, watch := false, timer := false }

/-- The `failed` label of l2raw_data_callback (also reached by successful
completion of the feature exchange and by every protocol/transport error in
the data phase): the timer was already removed at callback entry if pending;
then close, unref, slist_remove, name_listener_remove, free, and the
callback's FALSE return removes the watch. -/
def dataCallbackTeardown (r : Res) : Option Res :=
  (if r.timer then resTimerDrop r else some r) >>= resClose >>= resUnref
    >>= resUnregister >>= resListenerDrop >>= resFree >>= resWatchDrop
    >>= resFlushNval

/-- The `failed` label of l2raw_connect_complete: close, unref, slist_remove,
name_listener_remove, free, and the FALSE return removes the connect watch. -/
def connectCompleteTeardown (r : Res) : Option Res :=
  resClose r >>= resUnref >>= resUnregister >>= resListenerDrop >>= resFree
    >>= resWatchDrop >>= resFlushNval

/-- `l2raw_input_timer`: close, slist_remove, name_listener_remove, free; the
FALSE return removes the fired timer source; the surviving data watch then
receives the NVAL for the closed channel and dismantles itself. -/
def inputTimerTeardown (r : Res) : Option Res :=
  resClose r >>= resUnregister >>= resListenerDrop >>= resFree
    >>= resTimerDrop >>= resFlushNval

/-- The teardown half of cancel_audit_remote_device: close if the record has
a channel, remove the timer if pending, slist_remove, name_listener_remove,
free; a surviving watch dismantles itself on the NVAL. -/
def cancelTeardown (r : Res) : Option Res :=
  (if r.ioOpen then resClose r else some r)
    >>= (fun r1 => if r1.timer then resTimerDrop r1 else some r1)
    >>= resUnregister >>= resListenerDrop >>= resFree >>= resFlushNval

/-- `audit_requestor_exited`: slist_remove, close if the record has a
channel, remove the timer if pending, free; the framework releases the fired
listener (modelled from the spec, see `requestorExit`); a surviving watch
dismantles itself on the NVAL. -/
def exitedTeardown (r : Res) : Option Res :=
  resUnregister r
    >>= (fun r1 => if r1.ioOpen then resClose r1 else some r1)
    >>= (fun r2 => if r2.timer then resTimerDrop r2 else some r2)
    >>= resFree >>= resListenerDrop >>= resFlushNval

/-! ## Registry invariants -/

/-- Number of registered records holding an io channel. -/
def ioCount (l : List Audit) : Nat := l.countP (fun a => a.ioChan)

/-- Per-record well-formedness maintained by every operation: the channel of
a registered record is never closed (every close in the file is paired with
removal from the registry); a watch implies a channel; and the timer is
pending exactly while the data callback watch is registered — that is, while
an info response is awaited. -/
def auditWF (a : Audit) : Bool :=
  !a.ioChanClosed
  && (a.ioWatch.isNone || a.ioChan)
  && (a.timeout == decide (a.ioWatch = some GIOFunc.dataCallback))

/-- Allocation identities of the registered records. -/
def idsOf (l : List Audit) : List Nat := l.map (fun a => a.id)

/-- The inductive state invariant: every record well formed, at most one
record holding a channel, identities distinct and below the allocation
counter. -/
def stateWF (s : DaemonState) : Prop :=
  (∀ a ∈ s.audits, auditWF a = true)
  ∧ ioCount s.audits ≤ 1
  ∧ (idsOf s.audits).Nodup
  ∧ ∀ a ∈ s.audits, a.id < s.nextId

lemma auditWF_split {a : Audit} (h : auditWF a = true) :
    a.ioChanClosed = false ∧ (a.ioWatch = none ∨ a.ioChan = true)
    ∧ (a.timeout = true ↔ a.ioWatch = some GIOFunc.dataCallback) := by
  simp only [auditWF, Bool.and_eq_true, Bool.not_eq_true', Bool.or_eq_true,
    Option.isNone_iff_eq_none, beq_iff_eq] at h
  refine ⟨h.1.1, h.1.2, ?_⟩
  rcases h with ⟨-, ht⟩
  constructor
  · intro hh; rw [hh] at ht; exact of_decide_eq_true ht.symm
  · intro hh; rw [ht, hh]; simp

@[simp] lemma handle_mtu_id (a : Audit) (rx : List Nat) :
    (handle_mtu_response a rx).1.id = a.id := by
  unfold handle_mtu_response; split <;> rfl

@[simp] lemma handle_mtu_ioChan (a : Audit) (rx : List Nat) :
    (handle_mtu_response a rx).1.ioChan = a.ioChan := by
  unfold handle_mtu_response; split <;> rfl

@[simp] lemma handle_mtu_ioChanClosed (a : Audit) (rx : List Nat) :
    (handle_mtu_response a rx).1.ioChanClosed = a.ioChanClosed := by
  unfold handle_mtu_response; split <;> rfl

@[simp] lemma handle_mtu_ioWatch (a : Audit) (rx : List Nat) :
    (handle_mtu_response a rx).1.ioWatch = a.ioWatch := by
  unfold handle_mtu_response; split <;> rfl

@[simp] lemma handle_mtu_timeout (a : Audit) (rx : List Nat) :
    (handle_mtu_response a rx).1.timeout = a.timeout := by
  unfold handle_mtu_response; split <;> rfl

@[simp] lemma handle_mtu_state (a : Audit) (rx : List Nat) :
    (handle_mtu_response a rx).1.state = a.state := by
  unfold handle_mtu_response; split <;> rfl

@[simp] lemma handle_mtu_requestor (a : Audit) (rx : List Nat) :
    (handle_mtu_response a rx).1.requestor = a.requestor := by
  unfold handle_mtu_response; split <;> rfl

@[simp] lemma handle_mtu_addr (a : Audit) (rx : List Nat) :
    (handle_mtu_response a rx).1.addr = a.addr := by
  unfold handle_mtu_response; split <;> rfl

/-- What survives a callback keeping its record: identity, channel presence,
requestor and address are untouched, and the record stays well formed. -/
lemma applyCb_keep_spec {f : GIOFunc} {env : IOEnv} {a a1 : Audit}
    {sent : List (List Nat)}
    (hw : a.ioWatch = some f) (hwf : auditWF a = true)
    (h : applyCb f env a = CbResult.keep a1 sent) :
    auditWF a1 = true ∧ a1.id = a.id ∧ a1.ioChan = a.ioChan
    ∧ a1.requestor = a.requestor ∧ a1.addr = a.addr := by
  obtain ⟨hclosed, hioc, htio⟩ := auditWF_split hwf
  have hchan : a.ioChan = true := by
    rcases hioc with h1 | h1
    · rw [hw] at h1; cases h1
    · exact h1
  cases f with
  | connectComplete =>
    simp only [applyCb] at h
    unfold l2raw_connect_complete at h
    cases hn : env.cond.isNval <;> rw [hn] at h <;>
      simp only [Bool.false_eq_true, if_false, if_true, hclosed] at h
    · cases he : (env.cond.isErr || env.cond.isHup) <;> rw [he] at h <;>
        simp only [Bool.false_eq_true, if_false, if_true] at h
      · cases hg : env.getsockoptOk <;> rw [hg] at h <;>
          simp only [Bool.not_false, Bool.not_true, Bool.false_eq_true,
            if_false, if_true] at h
        · cases h
        · by_cases hs : env.soError = 0
          · rw [if_neg (by simp [hs])] at h
            cases hsend : env.sendOk <;> rw [hsend] at h <;>
              simp only [Bool.not_false, Bool.not_true, Bool.false_eq_true,
                if_false, if_true] at h
            · cases h
            · injection h with h1 h2
              subst h1
              refine ⟨?_, rfl, rfl, rfl, rfl⟩
              simp [auditWF, hclosed, hchan]
          · rw [if_pos (by simpa using hs)] at h
            cases h
      · cases h
    · injection h with h1 h2
      subst h1
      exact ⟨hwf, rfl, rfl, rfl, rfl⟩
  | dataCallback =>
    simp only [applyCb] at h
    unfold l2raw_data_callback at h
    cases hn : env.cond.isNval <;> rw [hn] at h <;>
      simp only [Bool.false_eq_true, if_false, if_true, hclosed] at h
    · cases he : (env.cond.isErr || env.cond.isHup) <;> rw [he] at h <;>
        simp only [Bool.false_eq_true, if_false, if_true] at h
      · cases hr : env.recvOk with
        | none => rw [hr] at h; cases h
        | some rx =>
          rw [hr] at h
          simp only [] at h
          cases hst : a.state with
          | mtu =>
            rw [show ({ a with timeout := false } : Audit).state = a.state
                  from rfl, hst] at h
            simp only [] at h
            cases hsend : env.sendOk <;> rw [hsend] at h <;>
              simp only [Bool.not_false, Bool.not_true, Bool.false_eq_true,
                if_false, if_true] at h
            · cases h
            · injection h with h1 h2
              subst h1
              refine ⟨?_, ?_, ?_, ?_, ?_⟩ <;>
                simp [auditWF, hclosed, hchan, hw]
          | features =>
            rw [show ({ a with timeout := false } : Audit).state = a.state
                  from rfl, hst] at h
            simp only [] at h
            cases h
      · cases h
    · injection h with h1 h2
      subst h1
      exact ⟨hwf, rfl, rfl, rfl, rfl⟩

/-- Effect of one io delivery on the audit list: well-formedness is
preserved, the number of held channels does not grow, and the identity list
shrinks to a sublist. -/
lemma deliverList_spec (aid : Nat) (env : IOEnv) (l : List Audit)
    (hl : ∀ a ∈ l, auditWF a = true) :
    (∀ b ∈ (deliverList aid env l).1, auditWF b = true)
    ∧ ioCount (deliverList aid env l).1 ≤ ioCount l
    ∧ ((idsOf (deliverList aid env l).1).Sublist (idsOf l)) := by
  induction l with
  | nil => simp [deliverList, ioCount, idsOf]
  | cons a rest ih =>
    have hwa : auditWF a = true := hl a (by simp)
    obtain ⟨ih1, ih2, ih3⟩ := ih (fun b hb => hl b (by simp [hb]))
    simp only [deliverList]
    by_cases hid : a.id = aid
    · rw [if_pos hid]
      cases hw : a.ioWatch with
      | none =>
        simp only []
        refine ⟨?_, ?_, ?_⟩
        · intro b hb
          rcases List.mem_cons.mp hb with rfl | hb
          · exact hwa
          · exact ih1 b hb
        · simp only [ioCount, List.countP_cons]
          exact Nat.add_le_add_right ih2 _
        · simp only [idsOf, List.map_cons]
          exact ih3.cons₂ a.id
      | some f =>
        simp only []
        cases hcb : applyCb f env a with
        | keep a1 sent =>
          simp only []
          obtain ⟨k1, k2, k3, _, _⟩ := applyCb_keep_spec hw hwa hcb
          refine ⟨?_, ?_, ?_⟩
          · intro b hb
            rcases List.mem_cons.mp hb with rfl | hb
            · exact k1
            · exact ih1 b hb
          · simp only [ioCount, List.countP_cons, k3]
            exact Nat.add_le_add_right ih2 _
          · simp only [idsOf, List.map_cons, k2]
            exact ih3.cons₂ a.id
        | teardown sent =>
          simp only []
          refine ⟨ih1, ?_, ?_⟩
          · refine ih2.trans ?_
            simp only [ioCount, List.countP_cons]
            omega
          · refine ih3.trans ?_
            simp only [idsOf, List.map_cons]
            exact List.sublist_cons_self _ _
    · rw [if_neg hid]
      refine ⟨?_, ?_, ?_⟩
      · intro b hb
        rcases List.mem_cons.mp hb with rfl | hb
        · exact hwa
        · exact ih1 b hb
      · simp only [ioCount, List.countP_cons]
        exact Nat.add_le_add_right ih2 _
      · simp only [idsOf, List.map_cons]
        exact ih3.cons₂ a.id

/-- Effect of one timer expiry on the audit list: surviving records are the
original ones, unchanged. -/
lemma timerList_sublist (aid : Nat) (l : List Audit) :
    ((timerList aid l).1).Sublist l := by
  induction l with
  | nil => simp [timerList]
  | cons a rest ih =>
    simp only [timerList]
    by_cases hc : a.id = aid ∧ a.timeout = true
    · rw [if_pos (by simp [hc.1, hc.2])]
      exact ih.trans (List.sublist_cons_self _ _)
    · rw [if_neg (by simpa using fun h1 h2 => hc ⟨h1, h2⟩)]
      exact ih.cons₂ a

/-- removeById keeps a sublist. -/
lemma removeById_sublist (i : Nat) (l : List Audit) :
    (removeById i l).Sublist l := by
  induction l with
  | nil => simp [removeById]
  | cons a rest ih =>
    simp only [removeById]
    by_cases hc : a.id = i
    · rw [if_pos hc]; exact List.sublist_cons_self _ _
    · rw [if_neg hc]; exact ih.cons₂ a

/-- The found audit is a member of the list. -/
lemma slist_find_addr_mem {dba : Nat} {l : List Audit} {a : Audit}
    (h : slist_find_addr dba l = some a) : a ∈ l ∧ a.addr = dba := by
  induction l with
  | nil => cases h
  | cons b rest ih =>
    simp only [slist_find_addr] at h
    by_cases hc : b.addr = dba
    · rw [if_pos hc] at h
      injection h with h1
      subst h1
      exact ⟨by simp, hc⟩
    · rw [if_neg hc] at h
      obtain ⟨h1, h2⟩ := ih h
      exact ⟨by simp [h1], h2⟩

/-- stateWF holds initially. -/
lemma stateWF_init : stateWF initState := by
  refine ⟨?_, ?_, ?_, ?_⟩ <;> simp [initState, ioCount, idsOf]

/-- stateWF is preserved by every operation. -/
lemma stateWF_applyOp (s : DaemonState) (op : Op) (h : stateWF s) :
    stateWF (applyOp s op) := by
  obtain ⟨h1, h2, h3, h4⟩ := h
  cases op with
  | start dd msg env =>
    show stateWF (audit_remote_device dd msg env s).2
    unfold audit_remote_device
    cases msg.args with
    | none => exact ⟨h1, h2, h3, h4⟩
    | some address =>
      simp only []
      by_cases hca : check_address address
      · rw [if_neg (by simp [hca])]
        by_cases hd : (dd.disc_active || (dd.pdisc_active && !dd.pinq_idle)) = true
        · rw [if_pos hd]; exact ⟨h1, h2, h3, h4⟩
        · rw [if_neg hd]
          by_cases hb : dd.bonding = true
          · rw [if_pos hb]; exact ⟨h1, h2, h3, h4⟩
          · rw [if_neg hb]
            by_cases hp : dd.pin_reqs.contains (str2ba address) = true
            · rw [if_pos hp]; exact ⟨h1, h2, h3, h4⟩
            · rw [if_neg hp]
              by_cases hra : env.replyAllocOk = true
              · rw [if_neg (by simp [hra])]
                by_cases haa : env.auditAllocOk = true
                · rw [if_neg (by simp [haa])]
                  by_cases hgate : audit_in_progress s.audits = true
                  · rw [if_neg (by simp [hgate])]
                    refine ⟨?_, ?_, ?_, ?_⟩
                    · intro a ha
                      rcases List.mem_append.mp ha with ha | ha
                      · exact h1 a ha
                      · rcases List.mem_singleton.mp ha with rfl
                        simp [auditWF, audit_new]
                    · have : ioCount (s.audits ++ [audit_new s.nextId msg (str2ba address)])
                          = ioCount s.audits := by
                        simp [ioCount, List.countP_append, audit_new]
                      simpa [this]
                    · simp only [idsOf, List.map_append, List.map_cons, List.map_nil]
                      rw [List.nodup_append]
                      refine ⟨h3, by simp, ?_⟩
                      intro x hx hy
                      simp only [audit_new, List.map_cons, List.map_nil,
                        List.mem_singleton] at hy
                      subst hy
                      obtain ⟨b, hb, hbid⟩ := List.mem_map.mp hx
                      have := h4 b hb
                      omega
                    · intro a ha
                      rcases List.mem_append.mp ha with ha | ha
                      · exact Nat.lt_succ_of_lt (h4 a ha)
                      · rcases List.mem_singleton.mp ha with rfl
                        simp [audit_new]
                  · rw [if_pos (by simpa using hgate)]
                    by_cases hco : env.connectOk = true
                    · rw [if_neg (by simp [hco])]
                      refine ⟨?_, ?_, ?_, ?_⟩
                      · intro a ha
                        rcases List.mem_append.mp ha with ha | ha
                        · exact h1 a ha
                        · rcases List.mem_singleton.mp ha with rfl
                          simp [auditWF, audit_new]
                      · have hz : s.audits.countP (fun a => a.ioChan) = 0 := by
                          simp only [audit_in_progress] at hgate
                          rw [List.countP_eq_zero]
                          intro a ha hcontra
                          exact hgate (List.any_eq_true.mpr ⟨a, ha, hcontra⟩)
                        simp [ioCount, List.countP_append, audit_new, hz]
                      · simp only [idsOf, List.map_append, List.map_cons, List.map_nil]
                        rw [List.nodup_append]
                        refine ⟨h3, by simp, ?_⟩
                        intro x hx hy
                        simp only [audit_new, List.map_cons, List.map_nil,
                          List.mem_singleton] at hy
                        subst hy
                        obtain ⟨b, hb, hbid⟩ := List.mem_map.mp hx
                        have := h4 b hb
                        omega
                      · intro a ha
                        rcases List.mem_append.mp ha with ha | ha
                        · exact Nat.lt_succ_of_lt (h4 a ha)
                        · rcases List.mem_singleton.mp ha with rfl
                          simp [audit_new]
                    · rw [if_pos (by simpa using hco)]
                      exact ⟨h1, h2, h3, h4⟩
                · rw [if_pos (by simpa using haa)]
                  exact ⟨h1, h2, h3, h4⟩
              · rw [if_pos (by simpa using hra)]
                exact ⟨h1, h2, h3, h4⟩
      · rw [if_pos (by simpa using hca)]
        exact ⟨h1, h2, h3, h4⟩
  | cancel msg env =>
    show stateWF (cancel_audit_remote_device msg env s).2
    unfold cancel_audit_remote_device
    cases msg.args with
    | none => exact ⟨h1, h2, h3, h4⟩
    | some address =>
      simp only []
      by_cases hca : check_address address
      · rw [if_neg (by simp [hca])]
        cases hf : slist_find_addr (str2ba address) s.audits with
        | none => exact ⟨h1, h2, h3, h4⟩
        | some audit =>
          simp only []
          by_cases hreq : audit.requestor ≠ msg.sender
          · rw [if_pos hreq]
            exact ⟨h1, h2, h3, h4⟩
          · rw [if_neg hreq]
            have hsub := removeById_sublist audit.id s.audits
            have wf : stateWF {
                audits := removeById audit.id s.audits,
                listeners := s.listeners.filter (fun l => !(l.2 == audit.id)),
                nextId := s.nextId } := by
              refine ⟨?_, ?_, ?_, ?_⟩
              · intro a ha; exact h1 a (hsub.mem ha)
              · exact (List.Sublist.countP_le _ hsub).trans h2
              · simp only [idsOf] at h3 ⊢
                exact (hsub.map (fun a => a.id)).nodup h3
              · intro a ha; exact h4 a (hsub.mem ha)
            by_cases he : env.replyAllocOk = true
            · rw [if_pos he]; exact wf
            · rw [if_neg he]; exact wf
      · rw [if_pos (by simpa using hca)]
        exact ⟨h1, h2, h3, h4⟩
  | ioReady aid env =>
    show stateWF (deliverIoEvent aid env s)
    obtain ⟨d1, d2, d3⟩ := deliverList_spec aid env s.audits h1
    refine ⟨d1, d2.trans h2, d3.nodup h3, ?_⟩
    intro a ha
    have : a.id ∈ idsOf s.audits := d3.mem (by simp [idsOf]; exact ⟨a, ha, rfl⟩)
    obtain ⟨b, hb, hbid⟩ := List.mem_map.mp this
    rw [← hbid]
    exact h4 b hb
  | timerFire aid =>
    show stateWF (fireTimer aid s)
    have hsub := timerList_sublist aid s.audits
    refine ⟨?_, ?_, ?_, ?_⟩
    · intro a ha; exact h1 a (hsub.mem ha)
    · exact (List.Sublist.countP_le _ hsub).trans h2
    · simp only [idsOf] at h3 ⊢
      exact (hsub.map (fun a => a.id)).nodup h3
    · intro a ha; exact h4 a (hsub.mem ha)
  | exited name =>
    show stateWF (requestorExit name s)
    have hsub : (s.audits.filter (fun a => !(a.requestor == name))).Sublist s.audits :=
      List.filter_sublist s.audits
    refine ⟨?_, ?_, ?_, ?_⟩
    · intro a ha; exact h1 a (hsub.mem ha)
    · exact (List.Sublist.countP_le _ hsub).trans h2
    · simp only [idsOf] at h3 ⊢
      exact (hsub.map (fun a => a.id)).nodup h3
    · intro a ha; exact h4 a (hsub.mem ha)

/-- Every reachable state satisfies the invariant. -/
lemma stateWF_runOps (ops : List Op) : stateWF (runOps ops) := by
  have gen : ∀ (l : List Op) (s : DaemonState), stateWF s →
      stateWF (l.foldl applyOp s) := by
    intro l
    induction l with
    | nil => intro s hs; exact hs
    | cons op rest ih =>
      intro s hs
      exact ih (applyOp s op) (stateWF_applyOp s op hs)
  exact gen ops initState stateWF_init

/-- A record whose identity and pending timer match the firing one is gone
from the list after the expiry. -/
lemma timerList_not_mem {aid : Nat} {l : List Audit} {a : Audit}
    (hid : a.id = aid) (ht : a.timeout = true) :
    a ∉ (timerList aid l).1 := by
  induction l with
  | nil => simp [timerList]
  | cons b rest ih =>
    simp only [timerList]
    by_cases hc : b.id = aid ∧ b.timeout = true
    · rw [if_pos (by simp [hc.1, hc.2])]
      exact ih
    · rw [if_neg (by simpa using fun h1 h2 => hc ⟨h1, h2⟩)]
      intro hmem
      rcases List.mem_cons.mp hmem with rfl | hmem
      · exact hc ⟨hid, ht⟩
      · exact ih hmem

/-- The firing record's identity is collected for listener removal. -/
lemma timerList_removed_ids {aid : Nat} {l : List Audit} {a : Audit}
    (ha : a ∈ l) (hid : a.id = aid) (ht : a.timeout = true) :
    aid ∈ (timerList aid l).2 := by
  induction l with
  | nil => cases ha
  | cons b rest ih =>
    simp only [timerList]
    rcases List.mem_cons.mp ha with rfl | hmem
    · rw [if_pos (by simp [hid, ht])]
      simp [hid]
    · by_cases hc : b.id = aid ∧ b.timeout = true
      · rw [if_pos (by simp [hc.1, hc.2])]
        simp [List.mem_cons, ih hmem]
      · rw [if_neg (by simpa using fun h1 h2 => hc ⟨h1, h2⟩)]
        exact ih hmem

/-- A record with no pending timer is untouched by any timer expiry. -/
lemma timerList_keeps {aid : Nat} {l : List Audit} {b : Audit}
    (hb : b ∈ l) (ht : b.timeout = false) : b ∈ (timerList aid l).1 := by
  induction l with
  | nil => cases hb
  | cons a rest ih =>
    simp only [timerList]
    rcases List.mem_cons.mp hb with rfl | hmem
    · rw [if_neg (by simp [ht])]
      simp
    · by_cases hc : a.id = aid ∧ a.timeout = true
      · rw [if_pos (by simp [hc.1, hc.2])]
        exact ih hmem
      · rw [if_neg (by simpa using fun h1 h2 => hc ⟨h1, h2⟩)]
        exact List.mem_cons_of_mem _ (ih hmem)

/-- A record with no registered watch is untouched by any io delivery. -/
lemma deliverList_keeps {aid : Nat} {env : IOEnv} {l : List Audit} {b : Audit}
    (hb : b ∈ l) (hw : b.ioWatch = none) : b ∈ (deliverList aid env l).1 := by
  induction l with
  | nil => cases hb
  | cons a rest ih =>
    simp only [deliverList]
    rcases List.mem_cons.mp hb with rfl | hmem
    · by_cases hid : b.id = aid
      · rw [if_pos hid, hw]
        simp
      · rw [if_neg hid]
        simp
    · by_cases hid : a.id = aid
      · rw [if_pos hid]
        cases hwa : a.ioWatch with
        | none =>
          simp only []
          exact List.mem_cons_of_mem _ (ih hmem)
        | some f =>
          simp only []
          cases hcb : applyCb f env a with
          | keep a1 sent =>
            simp only []
            exact List.mem_cons_of_mem _ (ih hmem)
          | teardown sent =>
            simp only []
            exact ih hmem
      · rw [if_neg hid]
        exact List.mem_cons_of_mem _ (ih hmem)

/-- removeById only removes records carrying the given identity. -/
lemma removeById_keeps {i : Nat} {l : List Audit} {b : Audit}
    (hb : b ∈ l) (hne : b.id ≠ i) : b ∈ removeById i l := by
  induction l with
  | nil => cases hb
  | cons a rest ih =>
    simp only [removeById]
    rcases List.mem_cons.mp hb with rfl | hmem
    · rw [if_neg hne]
      simp
    · by_cases hc : a.id = i
      · rw [if_pos hc]
        exact hmem
      · rw [if_neg hc]
        exact List.mem_cons_of_mem _ (ih hmem)

/-- removeById removes exactly one record when one with the identity is
present. -/
lemma removeById_length {i : Nat} {l : List Audit} {a : Audit}
    (ha : a ∈ l) (hid : a.id = i) :
    (removeById i l).length + 1 = l.length := by
  induction l with
  | nil => cases ha
  | cons b rest ih =>
    simp only [removeById]
    by_cases hc : b.id = i
    · rw [if_pos hc]
      simp
    · rw [if_neg hc]
      rcases List.mem_cons.mp ha with rfl | hmem
      · exact absurd hid hc
      · simp only [List.length_cons]
        rw [← ih hmem]

/-- The branches of audit_remote_device either leave the state unchanged or
append exactly one record. -/
lemma audit_remote_device_audits (dd : DBusData) (msg : StartMsg)
    (env : StartEnv) (s : DaemonState) :
    (audit_remote_device dd msg env s).2.audits = s.audits
    ∨ ∃ x, (audit_remote_device dd msg env s).2.audits = s.audits ++ [x] := by
  unfold audit_remote_device
  cases msg.args with
  | none => exact Or.inl rfl
  | some address =>
    simp only []
    split_ifs <;> first
      | exact Or.inl rfl
      | exact Or.inr ⟨_, rfl⟩

/-- The branches of cancel_audit_remote_device either leave the state
unchanged or remove the found record, whose requestor matched the sender. -/
lemma cancel_audit_remote_device_audits (msg : CancelMsg) (env : CancelEnv)
    (s : DaemonState) :
    (cancel_audit_remote_device msg env s).2 = s
    ∨ ∃ audit address, msg.args = some address
        ∧ slist_find_addr (str2ba address) s.audits = some audit
        ∧ audit.requestor = msg.sender
        ∧ (cancel_audit_remote_device msg env s).2.audits
            = removeById audit.id s.audits := by
  unfold cancel_audit_remote_device
  cases hargs : msg.args with
  | none => exact Or.inl rfl
  | some address =>
    simp only []
    by_cases hca : check_address address
    · rw [if_neg (by simp [hca])]
      cases hf : slist_find_addr (str2ba address) s.audits with
      | none => exact Or.inl rfl
      | some audit =>
        simp only []
        by_cases hreq : audit.requestor ≠ msg.sender
        · rw [if_pos hreq]
          exact Or.inl rfl
        · rw [if_neg hreq]
          push_neg at hreq
          by_cases he : env.replyAllocOk = true
          · rw [if_pos he]
            exact Or.inr ⟨audit, address, rfl, hf, hreq, rfl⟩
          · rw [if_neg he]
            exact Or.inr ⟨audit, address, rfl, hf, hreq, rfl⟩
    · rw [if_pos (by simpa using hca)]
      exact Or.inl rfl

/-- Distinct registered records carry distinct identities. -/
lemma runOps_id_inj (ops : List Op) {a b : Audit}
    (ha : a ∈ (runOps ops).audits) (hb : b ∈ (runOps ops).audits)
    (hid : a.id = b.id) : a = b := by
  have h3 : (idsOf (runOps ops).audits).Nodup := (stateWF_runOps ops).2.2.1
  simp only [idsOf] at h3
  exact List.inj_on_of_nodup_map h3 ha hb hid

/-- Reading the receive buffer never looks past the recv request size: the
handlers see only the first recvRequest bytes. -/
lemma getD_take (l : List Nat) : ∀ (n i : Nat), i < n →
    (l.take n).getD i 0 = l.getD i 0 := by
  induction l with
  | nil => intro n i h; simp
  | cons a rest ih =>
    intro n i h
    cases n with
    | zero => omega
    | succ m =>
      cases i with
      | zero => simp
      | succ j => simpa using ih m j (by omega)

lemma bufByte_take (rx : List Nat) (i : Nat) :
    bufByte (rx.take recvRequest) i = bufByte rx i := by
  unfold bufByte
  by_cases h : i < recvRequest
  · rw [if_pos h, if_pos h]
    exact getD_take rx recvRequest i h
  · rw [if_neg h, if_neg h]

/-! ## Claim theorems -/

/-- C1: for every terminal transition of a registered probe — successful
completion of the feature-info exchange or any protocol/transport error in
the data phase (the failed label of l2raw_data_callback), a connect-phase
failure (the failed label of l2raw_connect_complete), timeout expiry
(l2raw_input_timer), explicit cancel and requestor exit — the io channel,
the pending timer (when present) and the event-loop watch are each released
exactly once, the record is unregistered, the liveness watch is released and
the memory freed.  Each release primitive fails on a resource not held, so a
completed run (`= some resReleased`) certifies both no double release and
nothing left held. -/
theorem c1_terminal_release_exactly_once :
    (∀ r : Res, resConnected r → dataCallbackTeardown r = some resReleased)
    ∧ (∀ r : Res, resConnected r → r.timer = false →
        connectCompleteTeardown r = some resReleased)
    ∧ (∀ r : Res, resConnected r → r.timer = true →
        inputTimerTeardown r = some resReleased)
    ∧ (∀ r : Res, resConnected r ∨ resQueued r →
        cancelTeardown r = some resReleased)
    ∧ (∀ r : Res, resConnected r ∨ resQueued r →
        exitedTeardown r = some resReleased) := by
  refine ⟨?_, ?_, ?_, ?_, ?_⟩
  · rintro ⟨m, reg, li, io, refs, w, t⟩ hc
    simp only [resConnected] at hc
    obtain ⟨rfl, rfl, rfl, rfl, rfl, rfl⟩ := hc
    cases t <;> rfl
  · rintro ⟨m, reg, li, io, refs, w, t⟩ hc ht
    simp only [resConnected] at hc
    obtain ⟨rfl, rfl, rfl, rfl, rfl, rfl⟩ := hc
    simp only [] at ht
    subst ht
    rfl
  · rintro ⟨m, reg, li, io, refs, w, t⟩ hc ht
    simp only [resConnected] at hc
    obtain ⟨rfl, rfl, rfl, rfl, rfl, rfl⟩ := hc
    simp only [] at ht
    subst ht
    rfl
  · rintro ⟨m, reg, li, io, refs, w, t⟩ (hc | hq)
    · simp only [resConnected] at hc
      obtain ⟨rfl, rfl, rfl, rfl, rfl, rfl⟩ := hc
      cases t <;> rfl
    · simp only [resQueued, Res.mk.injEq] at hq
      obtain ⟨rfl, rfl, rfl, rfl, rfl, rfl, rfl⟩ := hq
      rfl
  · rintro ⟨m, reg, li, io, refs, w, t⟩ (hc | hq)
    · simp only [resConnected] at hc
      obtain ⟨rfl, rfl, rfl, rfl, rfl, rfl⟩ := hc
      cases t <;> rfl
    · simp only [resQueued, Res.mk.injEq] at hq
      obtain ⟨rfl, rfl, rfl, rfl, rfl, rfl, rfl⟩ := hq
      rfl

/-- A connected resource entry with a pending timer (data phase / timeout /
cancel) and a queued entry (cancel / exit), as concrete values. -/
def resConnT : Res :=
  { mem := true, registered := true, listener := true, ioOpen := true,
    ioRefs := 2, watch := true, timer := true }

def resConnNoT : Res :=
  { mem := true, registered := true, listener := true, ioOpen := true,
    ioRefs := 2, watch := true, timer := false }

def resQ : Res :=
  { mem := true, registered := true, listener := true, ioOpen := false,
    ioRefs := 0, watch := false, timer := false }

/-- Witness for c1_terminal_release_exactly_once: each of the five paths run
at a concrete entry state. -/
theorem c1_terminal_release_exactly_once_witness :
    dataCallbackTeardown resConnT = some resReleased
    ∧ connectCompleteTeardown resConnNoT = some resReleased
    ∧ inputTimerTeardown resConnT = some resReleased
    ∧ cancelTeardown resQ = some resReleased
    ∧ exitedTeardown resConnT = some resReleased :=
  ⟨c1_terminal_release_exactly_once.1 resConnT ⟨rfl, rfl, rfl, rfl, rfl, rfl⟩,
   c1_terminal_release_exactly_once.2.1 resConnNoT
     ⟨rfl, rfl, rfl, rfl, rfl, rfl⟩ rfl,
   c1_terminal_release_exactly_once.2.2.1 resConnT
     ⟨rfl, rfl, rfl, rfl, rfl, rfl⟩ rfl,
   c1_terminal_release_exactly_once.2.2.2.1 resQ (Or.inr rfl),
   c1_terminal_release_exactly_once.2.2.2.2 resConnT
     (Or.inl ⟨rfl, rfl, rfl, rfl, rfl, rfl⟩)⟩

/-- C3: for every sequence of start, cancel, io-ready, timeout and
requestor-exit operations beginning from the empty registry, at most one
registered record holds a connection at any time (a start opens a socket
only when audit_in_progress is false). -/
theorem c3_single_flight (ops : List Op) :
    ioCount (runOps ops).audits ≤ 1 :=
  (stateWF_runOps ops).2.1

/-- The record used by the C7 theorems. -/
def c7Audit : Audit :=
  audit_new 0
    { args := some "00:11:22:33:44:55", sender := "clientA",
      path := "/adapter0" } 7

/-- C7 fails on the code: a received info response whose result code is
0x0002 (bytes 6,7 of the zero-filled buffer) is silently dropped by both
handlers — no field written, nothing logged (`none`), the switch has no
default arm — instead of being reported as UnexpectedResult(code). -/
theorem c7_counterexample :
    rspResult [10, 66, 8, 0, 1, 0, 2, 0] = 2
    ∧ handle_mtu_response c7Audit [10, 66, 8, 0, 1, 0, 2, 0] = (c7Audit, none)
    ∧ handle_features_response c7Audit [10, 66, 8, 0, 1, 0, 2, 0]
        = (c7Audit, none) :=
  ⟨rfl, rfl, rfl⟩

/-- C7 amended: a received info response whose 2-byte result code is neither
0x0000 nor 0x0001 is silently ignored by both the MTU and the feature-mask
handler — the record is unchanged and nothing is reported — rather than
being reported as UnexpectedResult(code). -/
theorem c7_unknown_result_silently_ignored (audit : Audit) (rx : List Nat)
    (h0 : rspResult rx ≠ 0) (h1 : rspResult rx ≠ 1) :
    handle_mtu_response audit rx = (audit, none)
    ∧ handle_features_response audit rx = (audit, none) := by
  rcases hr : rspResult rx with _ | n
  · exact absurd hr h0
  · cases n with
    | zero => exact absurd hr h1
    | succ m =>
      constructor
      · unfold handle_mtu_response
        rw [hr]
        rfl
      · unfold handle_features_response
        rw [hr]
        rfl

/-- Witness for c7_unknown_result_silently_ignored at result code 0x0005. -/
theorem c7_unknown_result_silently_ignored_witness :
    handle_mtu_response c7Audit [0, 0, 0, 0, 0, 0, 5, 0] = (c7Audit, none)
    ∧ handle_features_response c7Audit [0, 0, 0, 0, 0, 0, 5, 0]
        = (c7Audit, none) :=
  c7_unknown_result_silently_ignored c7Audit [0, 0, 0, 0, 0, 0, 5, 0]
    (by decide) (by decide)

/-- The record used by the C8 theorems. -/
def c8Audit : Audit :=
  audit_new 3
    { args := some "AA:BB:CC:DD:EE:FF", sender := "clientC",
      path := "/adapter0" } 9

/-- C8 fails on the code: a 4-byte buffer — shorter than the minimum
header-plus-result-code size of 8 — is not rejected as truncated: the
zero-filled buffer makes the missing result code read as 0x0000, and both
handlers store the (equally unreceived, zero) payload fields and report
success. -/
theorem c8_counterexample :
    ([10, 66, 4, 0] : List Nat).length
        < L2CAP_CMD_HDR_SIZE + L2CAP_INFO_RSP_SIZE
    ∧ handle_mtu_response c8Audit [10, 66, 4, 0]
        = ({ c8Audit with mtu := 0, gotMtu := true },
           some (InfoLog.mtuValue 0))
    ∧ handle_features_response c8Audit [10, 66, 4, 0]
        = ({ c8Audit with mask := 0, gotMask := true },
           some (InfoLog.maskValue 0)) :=
  ⟨by decide, rfl, rfl⟩

/-- C8 amended: there is no length check — the handlers read the memset-zero
bytes in place of missing data.  Reads are confined to the first recvRequest
(= 10) positions of the fixed 48-byte buffer (the handlers cannot distinguish
`rx` from `rx.take recvRequest`, so nothing beyond the recv request is ever
read), and a buffer too short to carry the result code (≤ 6 bytes) is
decoded as a successful response with zero-valued payload fields instead of
yielding a Truncated outcome. -/
theorem c8_zero_fill_no_length_check (audit : Audit) (rx : List Nat) :
    (handle_mtu_response audit rx
        = handle_mtu_response audit (rx.take recvRequest)
      ∧ handle_features_response audit rx
        = handle_features_response audit (rx.take recvRequest))
    ∧ (rx.length ≤ 6 →
      handle_mtu_response audit rx
        = ({ audit with mtu := 0, gotMtu := true }, some (InfoLog.mtuValue 0))
      ∧ handle_features_response audit rx
        = ({ audit with mask := 0, gotMask := true },
           some (InfoLog.maskValue 0))) := by
  constructor
  · constructor
    · simp only [handle_mtu_response, rspResult, rspDataU16, bufByte_take]
    · simp only [handle_features_response, rspResult, rspDataU32, bufByte_take]
  · intro hlen
    have hz : ∀ i, 6 ≤ i → bufByte rx i = 0 := by
      intro i hi
      unfold bufByte
      by_cases h : i < recvRequest
      · rw [if_pos h]
        exact List.getD_eq_default _ _ (by omega)
      · rw [if_neg h]
    constructor
    · simp [handle_mtu_response, rspResult, rspDataU16, le16,
        hz 6 (by omega), hz 7 (by omega), hz 8 (by omega), hz 9 (by omega)]
    · simp [handle_features_response, rspResult, rspDataU32, le16, le32,
        hz 6 (by omega), hz 7 (by omega), hz 8 (by omega), hz 9 (by omega),
        hz 10 (by omega), hz 11 (by omega)]

/-- Witness for c8_zero_fill_no_length_check on a 3-byte buffer. -/
theorem c8_zero_fill_no_length_check_witness :
    handle_mtu_response c8Audit [1, 2, 3]
      = ({ c8Audit with mtu := 0, gotMtu := true }, some (InfoLog.mtuValue 0))
    ∧ handle_features_response c8Audit [1, 2, 3]
      = ({ c8Audit with mask := 0, gotMask := true },
         some (InfoLog.maskValue 0)) :=
  (c8_zero_fill_no_length_check c8Audit [1, 2, 3]).2 (by decide)

/-- C9: on an MTU info response carrying result code 0x0001 (not supported),
got_mtu stays as it was and mtu is not written — the kept record differs from
the callback's entry record only in its timer and protocol state — and the
probe proceeds: the feature-mask info request (type 0x0002, the second sent
list element shape) is sent, a new response timer is started and the state
advances to AUDIT_STATE_FEATURES. -/
theorem c9_mtu_not_supported_proceeds (audit : Audit) (env : IOEnv)
    (rx : List Nat) (hst : audit.state = AuditState.mtu)
    (hnval : env.cond.isNval = false) (herr : env.cond.isErr = false)
    (hhup : env.cond.isHup = false) (hrecv : env.recvOk = some rx)
    (hres : rspResult rx = 1) (hsend : env.sendOk = true) :
    l2raw_data_callback env audit
      = CbResult.keep
          { audit with timeout := true, state := AuditState.features }
          [infoRequestBytes 2]
    ∧ infoRequestBytes 2 = [10, 42, 2, 0, 2, 0] := by
  constructor
  · unfold l2raw_data_callback
    rw [hnval]
    simp only [Bool.false_eq_true, if_false]
    rw [herr, hhup]
    simp only [Bool.or_self, Bool.false_eq_true, if_false]
    rw [hrecv]
    simp only []
    rw [show ({ audit with timeout := false } : Audit).state = audit.state
          from rfl, hst]
    simp only []
    unfold handle_mtu_response
    rw [show rspResult rx = 1 from hres]
    simp only []
    rw [hsend]
    rfl
  · rfl

/-- The record used by the C9 witness. -/
def c9Audit : Audit :=
  audit_new 1
    { args := some "00:11:22:33:44:55", sender := "clientA",
      path := "/adapter0" } 5

/-- Witness for c9_mtu_not_supported_proceeds at a concrete record and a
concrete not-supported response. -/
theorem c9_mtu_not_supported_proceeds_witness :
    l2raw_data_callback
      { cond := { isErr := false, isHup := false, isNval := false },
        getsockoptOk := true, soError := 0,
        recvOk := some [10, 66, 8, 0, 1, 0, 1, 0], sendOk := true }
      c9Audit
      = CbResult.keep
          { c9Audit with timeout := true, state := AuditState.features }
          [infoRequestBytes 2] :=
  (c9_mtu_not_supported_proceeds c9Audit
    { cond := { isErr := false, isHup := false, isNval := false },
      getsockoptOk := true, soError := 0,
      recvOk := some [10, 66, 8, 0, 1, 0, 1, 0], sendOk := true }
    [10, 66, 8, 0, 1, 0, 1, 0] rfl rfl rfl rfl rfl (by decide) rfl).1

/-- C5: AuditRemoteDevice replies InvalidArguments on unextractable
arguments or a malformed address, DiscoverInProgress while a discovery or a
non-idle periodic inquiry is active, BondingInProgress while a bonding is
active or a PIN request for the target is pending, and
ConnectionAttemptFailed when the raw-socket connect fails at start time (the
gate being clear); in each error case the daemon state — registry and
listeners — is exactly unchanged. -/
theorem c5_admission_errors :
    (∀ dd msg env s, msg.args = none →
      audit_remote_device dd msg env s = (StartReply.invalidArguments, s))
    ∧ (∀ dd msg env s address, msg.args = some address →
      check_address address = false →
      audit_remote_device dd msg env s = (StartReply.invalidArguments, s))
    ∧ (∀ dd msg env s address, msg.args = some address →
      check_address address = true →
      (dd.disc_active || (dd.pdisc_active && !dd.pinq_idle)) = true →
      audit_remote_device dd msg env s = (StartReply.discoverInProgress, s))
    ∧ (∀ dd msg env s address, msg.args = some address →
      check_address address = true →
      (dd.disc_active || (dd.pdisc_active && !dd.pinq_idle)) = false →
      dd.bonding = true →
      audit_remote_device dd msg env s = (StartReply.bondingInProgress, s))
    ∧ (∀ dd msg env s address, msg.args = some address →
      check_address address = true →
      (dd.disc_active || (dd.pdisc_active && !dd.pinq_idle)) = false →
      dd.bonding = false →
      dd.pin_reqs.contains (str2ba address) = true →
      audit_remote_device dd msg env s = (StartReply.bondingInProgress, s))
    ∧ (∀ dd msg env s address, msg.args = some address →
      check_address address = true →
      (dd.disc_active || (dd.pdisc_active && !dd.pinq_idle)) = false →
      dd.bonding = false →
      dd.pin_reqs.contains (str2ba address) = false →
      env.replyAllocOk = true → env.auditAllocOk = true →
      audit_in_progress s.audits = false → env.connectOk = false →
      audit_remote_device dd msg env s
        = (StartReply.connectionAttemptFailed, s)) := by
  refine ⟨?_, ?_, ?_, ?_, ?_, ?_⟩
  · intro dd msg env s h
    unfold audit_remote_device
    rw [h]
  · intro dd msg env s address h hca
    unfold audit_remote_device
    rw [h]
    simp [hca]
  · intro dd msg env s address h hca hd
    unfold audit_remote_device
    rw [h]
    simp [hca, hd]
  · intro dd msg env s address h hca hd hb
    unfold audit_remote_device
    rw [h]
    simp [hca, hd, hb]
  · intro dd msg env s address h hca hd hb hp
    have hmem : str2ba address ∈ dd.pin_reqs := by
      simpa [List.contains, List.elem_eq_mem] using hp
    unfold audit_remote_device
    rw [h]
    simp [hca, hd, hb, hmem]
  · intro dd msg env s address h hca hd hb hp hra haa hgate hco
    have hmem : str2ba address ∉ dd.pin_reqs := by
      simpa [List.contains, List.elem_eq_mem] using hp
    unfold audit_remote_device
    rw [h]
    simp [hca, hd, hb, hmem, hra, haa, hgate, hco]

/-- Witness for c5_admission_errors: each error branch at concrete inputs. -/
theorem c5_admission_errors_witness :
    audit_remote_device
        { disc_active := false, pdisc_active := false, pinq_idle := false,
          bonding := false, pin_reqs := [] }
        { args := none, sender := "clientA", path := "/adapter0" }
        { replyAllocOk := true, auditAllocOk := true, connectOk := true }
        initState
      = (StartReply.invalidArguments, initState)
    ∧ audit_remote_device
        { disc_active := false, pdisc_active := false, pinq_idle := false,
          bonding := false, pin_reqs := [] }
        { args := some "nonsense", sender := "clientA", path := "/adapter0" }
        { replyAllocOk := true, auditAllocOk := true, connectOk := true }
        initState
      = (StartReply.invalidArguments, initState)
    ∧ audit_remote_device
        { disc_active := true, pdisc_active := false, pinq_idle := false,
          bonding := false, pin_reqs := [] }
        { args := some "00:11:22:33:44:55", sender := "clientA",
          path := "/adapter0" }
        { replyAllocOk := true, auditAllocOk := true, connectOk := true }
        initState
      = (StartReply.discoverInProgress, initState)
    ∧ audit_remote_device
        { disc_active := false, pdisc_active := false, pinq_idle := false,
          bonding := true, pin_reqs := [] }
        { args := some "00:11:22:33:44:55", sender := "clientA",
          path := "/adapter0" }
        { replyAllocOk := true, auditAllocOk := true, connectOk := true }
        initState
      = (StartReply.bondingInProgress, initState)
    ∧ audit_remote_device
        { disc_active := false, pdisc_active := false, pinq_idle := false,
          bonding := false, pin_reqs := [str2ba "00:11:22:33:44:55"] }
        { args := some "00:11:22:33:44:55", sender := "clientA",
          path := "/adapter0" }
        { replyAllocOk := true, auditAllocOk := true, connectOk := true }
        initState
      = (StartReply.bondingInProgress, initState)
    ∧ audit_remote_device
        { disc_active := false, pdisc_active := false, pinq_idle := false,
          bonding := false, pin_reqs := [] }
        { args := some "00:11:22:33:44:55", sender := "clientA",
          path := "/adapter0" }
        { replyAllocOk := true, auditAllocOk := true, connectOk := false }
        initState
      = (StartReply.connectionAttemptFailed, initState) :=
  ⟨c5_admission_errors.1 _ _ _ _ rfl,
   c5_admission_errors.2.1 _ _ _ _ "nonsense" rfl (by decide),
   c5_admission_errors.2.2.1 _ _ _ _ "00:11:22:33:44:55" rfl (by decide) rfl,
   c5_admission_errors.2.2.2.1 _ _ _ _ "00:11:22:33:44:55" rfl (by decide)
     rfl rfl,
   c5_admission_errors.2.2.2.2.1 _ _ _ _ "00:11:22:33:44:55" rfl (by decide)
     rfl rfl (by decide),
   c5_admission_errors.2.2.2.2.2 _ _ _ _ "00:11:22:33:44:55" rfl (by decide)
     rfl rfl (by decide) rfl rfl rfl rfl⟩

/-- C6: CancelAuditRemoteDevice replies NotInProgress — and changes nothing —
when no audit is registered for the target address; replies NotAuthorized —
and changes nothing — when the found audit's requestor differs from the
sender; otherwise acknowledges after removing exactly that record from the
registry and releasing its name listener, with the cancel resource path
(close channel if present, remove timer if present, unregister, release
listener, free) releasing every held resource exactly once. -/
theorem c6_cancel_semantics :
    (∀ msg env s address, msg.args = some address →
      check_address address = true →
      slist_find_addr (str2ba address) s.audits = none →
      cancel_audit_remote_device msg env s = (CancelReply.notInProgress, s))
    ∧ (∀ msg env s address audit, msg.args = some address →
      check_address address = true →
      slist_find_addr (str2ba address) s.audits = some audit →
      audit.requestor ≠ msg.sender →
      cancel_audit_remote_device msg env s = (CancelReply.notAuthorized, s))
    ∧ (∀ msg env s address audit, msg.args = some address →
      check_address address = true →
      slist_find_addr (str2ba address) s.audits = some audit →
      audit.requestor = msg.sender → env.replyAllocOk = true →
      (cancel_audit_remote_device msg env s).1 = CancelReply.ok
      ∧ (cancel_audit_remote_device msg env s).2.audits
          = removeById audit.id s.audits
      ∧ (cancel_audit_remote_device msg env s).2.audits.length + 1
          = s.audits.length
      ∧ (cancel_audit_remote_device msg env s).2.listeners
          = s.listeners.filter (fun l => !(l.2 == audit.id)))
    ∧ (∀ r : Res, resConnected r ∨ resQueued r →
      cancelTeardown r = some resReleased) := by
  refine ⟨?_, ?_, ?_, ?_⟩
  · intro msg env s address h hca hf
    unfold cancel_audit_remote_device
    rw [h]
    simp [hca, hf]
  · intro msg env s address audit h hca hf hreq
    unfold cancel_audit_remote_device
    rw [h]
    simp only [hca, Bool.not_true, Bool.false_eq_true, if_false, hf]
    rw [if_pos hreq]
  · intro msg env s address audit h hca hf hreq hra
    have heq : cancel_audit_remote_device msg env s
        = (CancelReply.ok,
           { audits := removeById audit.id s.audits,
             listeners := s.listeners.filter (fun l => !(l.2 == audit.id)),
             nextId := s.nextId }) := by
      unfold cancel_audit_remote_device
      rw [h]
      simp only [hca, Bool.not_true, Bool.false_eq_true, if_false, hf]
      rw [if_neg (by simp [hreq]), if_pos hra]
    rw [heq]
    obtain ⟨hmem, -⟩ := slist_find_addr_mem hf
    exact ⟨rfl, rfl, removeById_length hmem rfl, rfl⟩
  · rintro ⟨m, reg, li, io, refs, w, t⟩ (hc | hq)
    · simp only [resConnected] at hc
      obtain ⟨rfl, rfl, rfl, rfl, rfl, rfl⟩ := hc
      cases t <;> rfl
    · simp only [resQueued, Res.mk.injEq] at hq
      obtain ⟨rfl, rfl, rfl, rfl, rfl, rfl, rfl⟩ := hq
      rfl

/-- The registered record and registry used by the C6 witness. -/
def c6Audit : Audit :=
  { (audit_new 0
      { args := some "00:11:22:33:44:55", sender := "clientA",
        path := "/adapter0" } (str2ba "00:11:22:33:44:55")) with
    ioChan := true, ioWatch := some GIOFunc.connectComplete }

def c6State : DaemonState :=
  { audits := [c6Audit], listeners := [("clientA", 0)], nextId := 1 }

/-- Witness for c6_cancel_semantics: unknown target on the empty registry,
wrong sender, and an authorized cancel, all at concrete inputs. -/
theorem c6_cancel_semantics_witness :
    cancel_audit_remote_device
        { args := some "AA:BB:CC:DD:EE:FF", sender := "clientA" }
        { replyAllocOk := true } initState
      = (CancelReply.notInProgress, initState)
    ∧ cancel_audit_remote_device
        { args := some "00:11:22:33:44:55", sender := "clientB" }
        { replyAllocOk := true } c6State
      = (CancelReply.notAuthorized, c6State)
    ∧ (cancel_audit_remote_device
        { args := some "00:11:22:33:44:55", sender := "clientA" }
        { replyAllocOk := true } c6State).1 = CancelReply.ok
    ∧ (cancel_audit_remote_device
        { args := some "00:11:22:33:44:55", sender := "clientA" }
        { replyAllocOk := true } c6State).2.audits
      = removeById c6Audit.id c6State.audits
    ∧ cancelTeardown resQ = some resReleased :=
  ⟨c6_cancel_semantics.1 _ _ _ "AA:BB:CC:DD:EE:FF" rfl (by decide) (by decide),
   c6_cancel_semantics.2.1 _ _ _ "00:11:22:33:44:55" c6Audit rfl (by decide)
     (by decide) (by decide),
   (c6_cancel_semantics.2.2.1 _ _ _ "00:11:22:33:44:55" c6Audit rfl
     (by decide) (by decide) rfl rfl).1,
   (c6_cancel_semantics.2.2.1 _ _ _ "00:11:22:33:44:55" c6Audit rfl
     (by decide) (by decide) rfl rfl).2.1,
   c6_cancel_semantics.2.2.2 resQ (Or.inr rfl)⟩

/-- Concrete inputs for the C2 theorems. -/
def c2dd : DBusData :=
  { disc_active := false, pdisc_active := false, pinq_idle := false,
    bonding := false, pin_reqs := [] }

def c2env : StartEnv :=
  { replyAllocOk := true, auditAllocOk := true, connectOk := true }

def c2msg1 : StartMsg :=
  { args := some "00:11:22:33:44:55", sender := "clientA",
    path := "/adapter0" }

def c2msg2 : StartMsg :=
  { args := some "00:11:22:33:44:55", sender := "clientB",
    path := "/adapter0" }

def c2s1 : DaemonState := (audit_remote_device c2dd c2msg1 c2env initState).2

/-- C2 fails on the code: audit_remote_device performs no duplicate-address
check (no DuplicateTarget-style error exists in the file) — a second
AuditRemoteDevice for an address already registered succeeds and a second
record is inserted, so the registry holds two records with the same target
address. -/
theorem c2_counterexample :
    (audit_remote_device c2dd c2msg2 c2env c2s1).1 = StartReply.ok
    ∧ ((audit_remote_device c2dd c2msg2 c2env c2s1).2.audits.countP
        (fun a => a.addr == str2ba "00:11:22:33:44:55")) = 2 := by
  constructor
  · rfl
  · rfl

/-- C2 amended: start_probe performs no duplicate-address check: a start that
passes argument validation and admission control while a record for the same
address is already registered (and some record holds the connection gate)
replies success and appends a second record with that address — the registry
can hold two records for one target address. -/
theorem c2_duplicate_start_admitted (dd : DBusData) (msg : StartMsg)
    (env : StartEnv) (s : DaemonState) (address : String)
    (hargs : msg.args = some address) (hca : check_address address = true)
    (hdisc : (dd.disc_active || (dd.pdisc_active && !dd.pinq_idle)) = false)
    (hbond : dd.bonding = false)
    (hpin : dd.pin_reqs.contains (str2ba address) = false)
    (hra : env.replyAllocOk = true) (haa : env.auditAllocOk = true)
    (hdup : 1 ≤ s.audits.countP (fun a => a.addr == str2ba address))
    (hgate : audit_in_progress s.audits = true) :
    (audit_remote_device dd msg env s).1 = StartReply.ok
    ∧ (audit_remote_device dd msg env s).2.audits
        = s.audits ++ [audit_new s.nextId msg (str2ba address)]
    ∧ 2 ≤ (audit_remote_device dd msg env s).2.audits.countP
          (fun a => a.addr == str2ba address) := by
  have hmem : str2ba address ∉ dd.pin_reqs := by
    simpa [List.contains, List.elem_eq_mem] using hpin
  have heq : audit_remote_device dd msg env s
      = (StartReply.ok,
         { audits := s.audits ++ [audit_new s.nextId msg (str2ba address)],
           listeners := s.listeners ++ [(msg.sender, s.nextId)],
           nextId := s.nextId + 1 }) := by
    unfold audit_remote_device
    rw [hargs]
    simp [hca, hdisc, hbond, hmem, hra, haa, hgate, audit_new]
  rw [heq]
  refine ⟨rfl, rfl, ?_⟩
  rw [List.countP_append]
  have hone : List.countP (fun a => a.addr == str2ba address)
      [audit_new s.nextId msg (str2ba address)] = 1 := by
    simp [audit_new]
  omega

/-- Witness for c2_duplicate_start_admitted on the concrete duplicate-start
state. -/
theorem c2_duplicate_start_admitted_witness :
    (audit_remote_device c2dd c2msg2 c2env c2s1).1 = StartReply.ok
    ∧ (audit_remote_device c2dd c2msg2 c2env c2s1).2.audits
        = c2s1.audits
          ++ [audit_new c2s1.nextId c2msg2 (str2ba "00:11:22:33:44:55")]
    ∧ 2 ≤ (audit_remote_device c2dd c2msg2 c2env c2s1).2.audits.countP
          (fun a => a.addr == str2ba "00:11:22:33:44:55") :=
  c2_duplicate_start_admitted c2dd c2msg2 c2env c2s1 "00:11:22:33:44:55"
    rfl (by decide) rfl rfl (by decide) rfl rfl (by decide) (by decide)

/-- Concrete inputs for the C4 theorems. -/
def c4dd : DBusData :=
  { disc_active := false, pdisc_active := false, pinq_idle := false,
    bonding := false, pin_reqs := [] }

def c4env : StartEnv :=
  { replyAllocOk := true, auditAllocOk := true, connectOk := true }

def c4msg : StartMsg :=
  { args := some "00:11:22:33:44:55", sender := "clientA",
    path := "/adapter0" }

/-- C4 fails on the code: immediately after an admitted start the record
holds a socket and the connect-complete watch — it is waiting on connect
completion — yet its timeout is NOT pending: audit_remote_device starts no
timer; the first timer is started only inside l2raw_connect_complete after
the connect has completed.  So "timeout_handle is set iff waiting on a
network response including connect completion" is false on the connect phase. -/
theorem c4_counterexample :
    (runOps [Op.start c4dd c4msg c4env]).audits.map
        (fun a => (a.ioChan, a.ioWatch, a.timeout))
      = [(true, some GIOFunc.connectComplete, false)] := by
  decide

/-- C4 amended: in every reachable state a probe's timer is pending exactly
while its data-callback watch is registered — i.e. while it awaits the MTU or
the feature info response; a probe whose non-blocking connect is in progress
has no timer.  A pending timer's expiry removes the record from the registry
and releases every listener registered for it, and the l2raw_input_timer
resource path releases the channel, the fired timer, the watch, the listener
and the memory exactly once. -/
theorem c4_timer_iff_awaiting_info_response :
    (∀ ops : List Op, ∀ a ∈ (runOps ops).audits,
      (a.timeout = true ↔ a.ioWatch = some GIOFunc.dataCallback))
    ∧ (∀ ops : List Op, ∀ a ∈ (runOps ops).audits, a.timeout = true →
      a ∉ (fireTimer a.id (runOps ops)).audits
      ∧ (∀ l ∈ (fireTimer a.id (runOps ops)).listeners, l.2 ≠ a.id))
    ∧ (∀ r : Res, resConnected r → r.timer = true →
      inputTimerTeardown r = some resReleased) := by
  refine ⟨?_, ?_, ?_⟩
  · intro ops a ha
    exact (auditWF_split ((stateWF_runOps ops).1 a ha)).2.2
  · intro ops a ha ht
    constructor
    · exact timerList_not_mem rfl ht
    · intro l hl hcontra
      have hrem : a.id ∈ (timerList a.id (runOps ops).audits).2 :=
        timerList_removed_ids ha rfl ht
      simp only [fireTimer, List.mem_filter] at hl
      have hcont := hl.2
      rw [hcontra] at hcont
      have hc2 : (timerList a.id (runOps ops).audits).2.contains a.id
          = true := by
        simpa [List.contains, List.elem_eq_mem] using hrem
      rw [hc2] at hcont
      cases hcont
  · rintro ⟨m, reg, li, io, refs, w, t⟩ hc ht
    simp only [resConnected] at hc
    obtain ⟨rfl, rfl, rfl, rfl, rfl, rfl⟩ := hc
    simp only [] at ht
    subst ht
    rfl

/-- The trace and record used by the C4 witness: a start followed by a
successful connect completion leaves the probe awaiting the MTU response
with its timer pending. -/
def c4wOps : List Op :=
  [Op.start c4dd c4msg c4env,
   Op.ioReady 0
     { cond := { isErr := false, isHup := false, isNval := false },
       getsockoptOk := true, soError := 0, recvOk := none, sendOk := true }]

def c4wAudit : Audit :=
  { id := 0, addr := str2ba "00:11:22:33:44:55", adapterPath := "/adapter0",
    requestor := "clientA", ioChan := true, ioChanClosed := false,
    ioWatch := some GIOFunc.dataCallback, timeout := true,
    state := AuditState.mtu, gotMtu := false, mtu := 0, gotMask := false,
    mask := 0 }

/-- C4 resource entry for the witness. -/
def c4Res : Res :=
  { mem := true, registered := true, listener := true, ioOpen := true,
    ioRefs := 2, watch := true, timer := true }

/-- Witness for c4_timer_iff_awaiting_info_response on the concrete trace. -/
theorem c4_timer_iff_awaiting_info_response_witness :
    (c4wAudit.timeout = true ↔ c4wAudit.ioWatch = some GIOFunc.dataCallback)
    ∧ c4wAudit ∉ (fireTimer c4wAudit.id (runOps c4wOps)).audits
    ∧ inputTimerTeardown c4Res = some resReleased :=
  ⟨c4_timer_iff_awaiting_info_response.1 c4wOps c4wAudit (by decide),
   (c4_timer_iff_awaiting_info_response.2.1 c4wOps c4wAudit (by decide)
     rfl).1,
   c4_timer_iff_awaiting_info_response.2.2 c4Res
     ⟨rfl, rfl, rfl, rfl, rfl, rfl⟩ rfl⟩

/-- C10: a start admitted while some registered probe holds the connection
gate appends a record with no socket, no watch and no timer; such an inert
record is never mutated or started by any subsequent operation — it stays in
the registry unchanged (registered identities are unique, so the membership
of the unchanged value pins the record) until a cancel whose sender is its
requestor, or its requestor's exit, removes it. -/
theorem c10_gate_queued_record_inert :
    (∀ ops : List Op, ∀ dd msg env address,
      msg.args = some address → check_address address = true →
      (dd.disc_active || (dd.pdisc_active && !dd.pinq_idle)) = false →
      dd.bonding = false → dd.pin_reqs.contains (str2ba address) = false →
      env.replyAllocOk = true → env.auditAllocOk = true →
      audit_in_progress (runOps ops).audits = true →
      (audit_remote_device dd msg env (runOps ops)).1 = StartReply.ok
      ∧ (audit_remote_device dd msg env (runOps ops)).2.audits
          = (runOps ops).audits
            ++ [audit_new (runOps ops).nextId msg (str2ba address)]
      ∧ (audit_new (runOps ops).nextId msg (str2ba address)).ioChan = false
      ∧ (audit_new (runOps ops).nextId msg (str2ba address)).ioWatch = none
      ∧ (audit_new (runOps ops).nextId msg (str2ba address)).timeout = false)
    ∧ (∀ ops : List Op, ∀ op : Op, ∀ a ∈ (runOps ops).audits,
      a.ioChan = false →
      a ∈ (applyOp (runOps ops) op).audits
      ∨ (∃ msg env, op = Op.cancel msg env ∧ msg.sender = a.requestor)
      ∨ op = Op.exited a.requestor)
    ∧ (∀ ops : List Op, ∀ a ∈ (runOps ops).audits, ∀ b ∈ (runOps ops).audits,
      a.id = b.id → a = b) := by
  refine ⟨?_, ?_, ?_⟩
  · intro ops dd msg env address hargs hca hdisc hbond hpin hra haa hgate
    have hmem : str2ba address ∉ dd.pin_reqs := by
      simpa [List.contains, List.elem_eq_mem] using hpin
    have heq : audit_remote_device dd msg env (runOps ops)
        = (StartReply.ok,
           { audits := (runOps ops).audits
               ++ [audit_new (runOps ops).nextId msg (str2ba address)],
             listeners := (runOps ops).listeners
               ++ [(msg.sender, (runOps ops).nextId)],
             nextId := (runOps ops).nextId + 1 }) := by
      unfold audit_remote_device
      rw [hargs]
      simp [hca, hdisc, hbond, hmem, hra, haa, hgate, audit_new]
    rw [heq]
    exact ⟨rfl, rfl, rfl, rfl, rfl⟩
  · intro ops op a ha hchan
    obtain ⟨hclosed, hioc, htio⟩ :=
      auditWF_split ((stateWF_runOps ops).1 a ha)
    have hwatch : a.ioWatch = none := by
      rcases hioc with h | h
      · exact h
      · rw [hchan] at h; cases h
    have htimer : a.timeout = false := by
      by_contra hcontra
      rw [Bool.not_eq_false] at hcontra
      rw [htio.mp hcontra] at hwatch
      cases hwatch
    cases op with
    | start dd msg env =>
      left
      show a ∈ (audit_remote_device dd msg env (runOps ops)).2.audits
      rcases audit_remote_device_audits dd msg env (runOps ops) with
        heq | ⟨x, heq⟩
      · rw [heq]; exact ha
      · rw [heq]; exact List.mem_append_left _ ha
    | cancel msg env =>
      rcases cancel_audit_remote_device_audits msg env (runOps ops) with
        heq | ⟨audit, address, hargs, hf, hreq, heq⟩
      · left
        show a ∈ (cancel_audit_remote_device msg env (runOps ops)).2.audits
        rw [heq]
        exact ha
      · by_cases hid : a.id = audit.id
        · right; left
          obtain ⟨hmem, -⟩ := slist_find_addr_mem hf
          have haudit : a = audit := runOps_id_inj ops ha hmem hid
          exact ⟨msg, env, rfl, by rw [← hreq, ← haudit]⟩
        · left
          show a ∈ (cancel_audit_remote_device msg env (runOps ops)).2.audits
          rw [heq]
          exact removeById_keeps ha hid
    | ioReady aid env =>
      left
      show a ∈ (deliverIoEvent aid env (runOps ops)).audits
      simp only [deliverIoEvent]
      exact deliverList_keeps ha hwatch
    | timerFire aid =>
      left
      show a ∈ (fireTimer aid (runOps ops)).audits
      simp only [fireTimer]
      exact timerList_keeps ha htimer
    | exited name =>
      by_cases hname : a.requestor = name
      · right; right
        rw [hname]
      · left
        show a ∈ (requestorExit name (runOps ops)).audits
        simp only [requestorExit]
        refine List.mem_filter.mpr ⟨ha, ?_⟩
        simp [hname]
  · intro ops a ha b hb hid
    exact runOps_id_inj ops ha hb hid

/-- Concrete inputs for the C10 witness. -/
def c10dd : DBusData :=
  { disc_active := false, pdisc_active := false, pinq_idle := false,
    bonding := false, pin_reqs := [] }

def c10env : StartEnv :=
  { replyAllocOk := true, auditAllocOk := true, connectOk := true }

def c10msgA : StartMsg :=
  { args := some "00:11:22:33:44:55", sender := "clientA",
    path := "/adapter0" }

def c10msgB : StartMsg :=
  { args := some "00:11:22:33:44:55", sender := "clientB",
    path := "/adapter0" }

def c10ops : List Op := [Op.start c10dd c10msgA c10env]

def c10ops2 : List Op :=
  [Op.start c10dd c10msgA c10env, Op.start c10dd c10msgB c10env]

def c10Queued : Audit := audit_new 1 c10msgB (str2ba "00:11:22:33:44:55")

/-- Witness for c10_gate_queued_record_inert: the gate-held append, the
inert survival of the queued record under a timer expiry, and identity
uniqueness, at concrete inputs. -/
theorem c10_gate_queued_record_inert_witness :
    ((audit_remote_device c10dd c10msgB c10env (runOps c10ops)).2.audits
      = (runOps c10ops).audits
        ++ [audit_new (runOps c10ops).nextId c10msgB
              (str2ba "00:11:22:33:44:55")])
    ∧ (c10Queued ∈ (applyOp (runOps c10ops2) (Op.timerFire 1)).audits
       ∨ (∃ msg env, Op.timerFire 1 = Op.cancel msg env
            ∧ msg.sender = c10Queued.requestor)
       ∨ Op.timerFire 1 = Op.exited c10Queued.requestor) :=
  ⟨(c10_gate_queued_record_inert.1 c10ops c10dd c10msgB c10env
      "00:11:22:33:44:55" rfl (by decide) rfl rfl (by decide) rfl rfl
      (by decide)).2.1,
   c10_gate_queued_record_inert.2.1 c10ops2 (Op.timerFire 1) c10Queued
     (by decide) (by decide)⟩

end DbusTest
